import Mathlib

/-!
Verification of the universeaty-revisited frontend against its specification.

The definitions below are a shallow embedding of the TypeScript client:
pure functions of the source are translated to Lean functions, fetch
responses become an explicit record type, and thrown errors become
`Except` results.  Field and function names follow the source where Lean
permits.
-/

/-- An academic term, `Term` in src/frontend/src/services/api.ts. -/
structure Term where
  id : String
  name : String
deriving DecidableEq, Repr

/-- One section record, `CourseDetailsSection` of the current api
module (the api document staged inside
src/frontend/src/hooks/useCourseData.tsx, lines 87-93), with fields
`block_type`, `key`, `open_seats`, `total_seats`, `section`.  The
TypeScript field `section` is a Lean keyword, so it is rendered as
`sectionLabel`; seat counts are JavaScript numbers carrying integers,
embedded as `Int`. -/
structure CourseDetailsSection where
  block_type : String
  key : String
  open_seats : Int
  total_seats : Int
  sectionLabel : String
deriving DecidableEq, Repr

/-- The legacy `CourseDetailsSection` interface of
src/frontend/src/services/api.ts lines 29-34: only `block_type`, `key`,
`open_seats` and `section`; it has no `total_seats` field. -/
structure LegacyCourseDetailsSection where
  block_type : String
  key : String
  open_seats : Int
  sectionLabel : String
deriving DecidableEq, Repr

/-- How a full section appears when typed at the legacy api.ts
boundary: the four legacy fields; `total_seats` has nowhere to go. -/
def legacySectionView (s : CourseDetailsSection) : LegacyCourseDetailsSection :=
  ⟨s.block_type, s.key, s.open_seats, s.sectionLabel⟩

/-- `CourseDetails` of api.ts: a JS object mapping block types to arrays
of sections, embedded as an association list in insertion order (the
order `Object.entries` yields). -/
abbrev CourseDetails := List (String × List CourseDetailsSection)

/-- `WatchRequestPayload` of api.ts. -/
structure WatchRequestPayload where
  email : String
  term_id : String
  course_code : String
  section_key : String
deriving DecidableEq, Repr

/-- `WatchResponse` of the current api module (staged inside
useCourseData.tsx, lines 106-109): `{ message?: string }`. -/
structure WatchResponse where
  message : Option String
deriving DecidableEq, Repr

/-- The legacy `WatchResponse` of src/frontend/src/services/api.ts
lines 47-50: `{ message?: string, error?: string }`. -/
structure LegacyWatchResponse where
  message : Option String
  error : Option String
deriving DecidableEq, Repr

/-- `ApiError` of the current api module (staged inside
useCourseData.tsx, lines 115-127): carries the message, the HTTP
status, and the parsed error body.  The body's only consulted field is
`error`, so `data` is embedded as that optional field. -/
structure ApiError where
  message : String
  status : Nat
  data : Option String
deriving DecidableEq, Repr

/-- The result of `await response.json()` on a fetch `Response`:
either the body is not valid JSON, or it parses to a value whose
generic `error` field is the first component and whose typed payload
is the second. -/
inductive JsonBody (α : Type) where
  | notJson : JsonBody α
  | json : Option String → α → JsonBody α
deriving DecidableEq

/-- A fetch `Response` as consumed by api.ts: its status code, status
text and (parsed) body. -/
structure HttpResp (α : Type) where
  status : Nat
  statusText : String
  body : JsonBody α
deriving DecidableEq

/-- The web platform's `Response.ok`: status in the range 200-299. -/
def respOk {α : Type} (r : HttpResp α) : Bool :=
  decide (200 ≤ r.status) && decide (r.status < 300)

/-- Errors escaping the api.ts client functions: a thrown `ApiError`,
or the exception from `response.json()` failing on a success body. -/
inductive FetchErr where
  | api : ApiError → FetchErr
  | jsonFailure : FetchErr
deriving DecidableEq

/-- JavaScript `a || b` on the optional string `a` with fallback `b`:
`none` and the empty string are falsy. -/
def jsOrElse (o : Option String) (fb : String) : String :=
  match o with
  | some s => if s = "" then fb else s
  | none => fb

/-- The `errorData` computed in api.ts error paths:
`await response.json().catch(() => ({ error: fallback }))`, read at its
`error` field. -/
def errField {α : Type} (r : HttpResp α) (fb : String) : Option String :=
  match r.body with
  | .notJson => some fb
  | .json e _ => e

/-- The long fallback text `handleResponse` feeds to the json-parse
catch handler. -/
def httpFallbackLong {α : Type} (r : HttpResp α) : String :=
  "HTTP error! status: " ++ toString r.status ++ " " ++ r.statusText

/-- The short fallback text `handleResponse` uses when `errorData.error`
is falsy. -/
def httpFallbackShort {α : Type} (r : HttpResp α) : String :=
  "HTTP error! status: " ++ toString r.status

/-- The `ApiError` that `handleResponse` throws for a non-OK response. -/
def handleErr {α : Type} (r : HttpResp α) : ApiError :=
  ⟨jsOrElse (errField r (httpFallbackLong r)) (httpFallbackShort r), r.status,
    errField r (httpFallbackLong r)⟩

/-- `handleResponse<T>` of the current api module (staged inside
useCourseData.tsx, lines 145-162): on a non-OK response, throw an
`ApiError` built from the parsed error body (with fallbacks); on an OK
response, parse and return the JSON body. -/
def handleResponse {α : Type} (r : HttpResp α) : Except FetchErr α :=
  if respOk r then
    match r.body with
    | .json _ d => .ok d
    | .notJson => .error .jsonFailure
  else
    .error (.api (handleErr r))

/-- `getCourses` of the current api module (staged inside
useCourseData.tsx, lines 198-209): 404 resolves to the empty array,
every other response goes through `handleResponse`. -/
def getCourses (r : HttpResp (List String)) : Except FetchErr (List String) :=
  if r.status = 404 then .ok [] else handleResponse r

/-- `getCourseDetails` of the current api module (staged inside
useCourseData.tsx, lines 224-236): 404 resolves to the empty object,
every other response goes through `handleResponse`. -/
def getCourseDetails (r : HttpResp CourseDetails) : Except FetchErr CourseDetails :=
  if r.status = 404 then .ok ([] : CourseDetails) else handleResponse r

/-- The fallback error text of `addWatchRequest` when the error body
has no usable `error` field. -/
def addWatchFallback {α : Type} (r : HttpResp α) : String :=
  "Request failed with status " ++ toString r.status

/-- The `errorData.error` value computed inside `addWatchRequest`. -/
def addWatchErrData (r : HttpResp WatchResponse) : Option String :=
  errField r ("Request failed with status " ++ toString r.status ++ " " ++ r.statusText)

/-- `addWatchRequest` of the current api module (staged inside
useCourseData.tsx, lines 251-295): POSTs the payload; on a non-OK
response throws an `ApiError` carrying the parsed error message and the
status; on an OK response returns the parsed `WatchResponse` body. -/
def addWatchRequest (r : HttpResp WatchResponse) : Except FetchErr WatchResponse :=
  if respOk r then
    match r.body with
    | .json _ d => .ok d
    | .notJson => .error .jsonFailure
  else
    let ed := addWatchErrData r
    .error (.api ⟨jsOrElse ed (addWatchFallback r), r.status, ed⟩)

/-- The legacy `addWatchRequest` of src/frontend/src/services/api.ts
lines 168-202: it never throws.  On an OK response it resolves with the
parsed body; on a non-OK response it resolves with
`{ error: errorData.error || fallback }` — the HTTP status code is not
carried anywhere in the result.  An exception inside the `try` (such as
`response.json()` failing on an OK body) is caught and resolved as
`{ error: "An network error occurred: " ++ message }`; the exception
message is environment-supplied and enters as `jsonErrText`. -/
def legacyAddWatchRequest (jsonErrText : String) (r : HttpResp LegacyWatchResponse) :
    LegacyWatchResponse :=
  if respOk r then
    match r.body with
    | .json _ d => d
    | .notJson => ⟨none, some ("An network error occurred: " ++ jsonErrText)⟩
  else
    ⟨none, some (jsOrElse (errField r (addWatchFallback r)) (addWatchFallback r))⟩

/-- A concrete 409 conflict response at the legacy endpoint type. -/
def legacyConflictResp : HttpResp LegacyWatchResponse :=
  ⟨409, "Conflict", .json (some "An active watch already exists for this section.")
    ⟨none, none⟩⟩

/-- `isWatchDisabled` as computed in SectionBlock
(src/unnamed/part_004 line 48):
`section.open_seats > 0 || isWatchMutationPending`. -/
def isWatchDisabled (s : CourseDetailsSection) (isWatchMutationPending : Bool) : Bool :=
  decide (s.open_seats > 0) || isWatchMutationPending

/-- The watch button `disabled` expression of App.tsx
`renderCourseDetails` (lines 599-602):
`section.open_seats > 0 || isSubmittingWatch`. -/
def appWatchDisabled (s : CourseDetailsSection) (isSubmittingWatch : Bool) : Bool :=
  decide (s.open_seats > 0) || isSubmittingWatch

/-- The seats span inside the availability badge of the
src/frontend/src/components/SectionRow.tsx generation (the
`({open_seats}/{total_seats})` span next to the OPEN/FULL label). -/
def seatBadgeText (s : CourseDetailsSection) : String :=
  "(" ++ toString s.open_seats ++ "/" ++ toString s.total_seats ++ ")"

/-- The badge text of the sibling SectionRow generation staged as
src/unnamed/part_003, line 31: `{open_seats} / {total_seats} seats`. -/
def seatRowText (s : CourseDetailsSection) : String :=
  toString s.open_seats ++ " / " ++ toString s.total_seats ++ " seats"

/-- C1: the watch button of a section row is enabled exactly when the
observed `open_seats` is at most 0 and no watch mutation is pending, in
both the SectionBlock/SectionRow component tree and the inline table of
App.tsx; hence a Submit watch request can only be initiated from a row
whose observed `open_seats` is less than or equal to 0. -/
theorem watch_button_gating (s : CourseDetailsSection) (p : Bool) :
    (isWatchDisabled s p = false ↔ (s.open_seats ≤ 0 ∧ p = false))
    ∧ (appWatchDisabled s p = false ↔ (s.open_seats ≤ 0 ∧ p = false)) := by
  unfold isWatchDisabled appWatchDisabled
  cases p <;> simp

/-- C4 counterexample: the legacy `CourseDetailsSection` interface of
services/api.ts lines 29-34 has no `total_seats` attribute — two
sections differing only in total seats are indistinguishable as typed
there — so the claim is false of that cited boundary type. -/
theorem section_record_complete_counterexample :
    legacySectionView ⟨"LEC", "1234", 0, 10, "C01"⟩ =
      legacySectionView ⟨"LEC", "1234", 0, 999, "C01"⟩
    ∧ (⟨"LEC", "1234", 0, 10, "C01"⟩ : CourseDetailsSection) ≠
        ⟨"LEC", "1234", 0, 999, "C01"⟩ :=
  ⟨rfl, by decide⟩

/-- C4 as amended: every section record as typed at the current client
boundary (the api module staged in useCourseData.tsx lines 87-93)
carries all five attributes `block_type`, `key`, `open_seats`,
`total_seats` and `section`, the seat counts are integers and both
appear in the rendered seats texts of either SectionRow generation;
the legacy services/api.ts interface instead carries exactly
`block_type`, `key`, `open_seats` and `section`, without
`total_seats`. -/
theorem section_record_complete (s : CourseDetailsSection) (l : LegacyCourseDetailsSection) :
    s = CourseDetailsSection.mk s.block_type s.key s.open_seats s.total_seats s.sectionLabel
    ∧ (∃ o t : Int, s.open_seats = o ∧ s.total_seats = t)
    ∧ seatBadgeText s = "(" ++ toString s.open_seats ++ "/" ++ toString s.total_seats ++ ")"
    ∧ seatRowText s = toString s.open_seats ++ " / " ++ toString s.total_seats ++ " seats"
    ∧ l = LegacyCourseDetailsSection.mk l.block_type l.key l.open_seats l.sectionLabel := by
  exact ⟨rfl, ⟨s.open_seats, s.total_seats, rfl, rfl⟩, rfl, rfl, rfl⟩

/-- A concrete 409 conflict response to the Submit watch endpoint. -/
def conflictResp : HttpResp WatchResponse :=
  ⟨409, "Conflict", .json (some "An active watch already exists for this section.") ⟨none⟩⟩

/-- A concrete 201 created response to the Submit watch endpoint. -/
def createdResp : HttpResp WatchResponse :=
  ⟨201, "Created", .json none ⟨some "Watch request added successfully."⟩⟩

/-- C2 counterexample: the legacy `addWatchRequest` of
services/api.ts lines 168-202 resolves a 409 conflict response
successfully with a plain `{error}` value — nothing is thrown, and its
result type (`LegacyWatchResponse`) has no field carrying the HTTP
status — so the claim is false of that cited version. -/
theorem addWatch_surfaces_http_failures_counterexample :
    legacyAddWatchRequest "Unexpected token" legacyConflictResp =
      ⟨none, some "An active watch already exists for this section."⟩ := rfl

/-- C2 as amended: for the current client's `addWatchRequest`
(useCourseData.tsx lines 251-295), every non-OK response to a Submit
watch request yields an error (never a success value) whose `ApiError`
carries the response's HTTP status and, whenever the error body
supplies a non-empty `error` message, exactly that server message, and
every OK response returns the parsed `{message}` body; the legacy
services/api.ts version instead resolves non-OK responses with a plain
`{error}` value carrying no status. -/
theorem addWatch_surfaces_http_failures (r : HttpResp WatchResponse) :
    (respOk r = false →
      addWatchRequest r =
        .error (.api ⟨jsOrElse (addWatchErrData r) (addWatchFallback r), r.status,
          addWatchErrData r⟩))
    ∧ (∀ m d, r.body = .json (some m) d → m ≠ "" →
        jsOrElse (addWatchErrData r) (addWatchFallback r) = m)
    ∧ (respOk r = true → ∀ e d, r.body = .json e d → addWatchRequest r = .ok d) := by
  refine ⟨fun hok => ?_, fun m d hb hm => ?_, fun hok e d hb => ?_⟩
  · simp [addWatchRequest, hok]
  · simp [addWatchErrData, errField, hb, jsOrElse, hm]
  · simp [addWatchRequest, hok, hb]

/-- Witness for C2 at the concrete 409 and 201 responses. -/
theorem addWatch_surfaces_http_failures_witness :
    addWatchRequest conflictResp =
      .error (.api ⟨"An active watch already exists for this section.", 409,
        some "An active watch already exists for this section."⟩)
    ∧ addWatchRequest createdResp = .ok ⟨some "Watch request added successfully."⟩ := by
  constructor
  · exact ((addWatch_surfaces_http_failures conflictResp).1 (by decide)).trans rfl
  · exact (addWatch_surfaces_http_failures createdResp).2.2 (by decide) none
      ⟨some "Watch request added successfully."⟩ rfl

/-- C3: for both catalog read operations, a 404 response resolves
successfully to the empty value (empty course list, empty details
object) instead of failing, and every other non-OK response is turned
into a thrown `ApiError` whose `status` equals the response's HTTP
status. -/
theorem notFound_resolves_empty (rc : HttpResp (List String)) (rd : HttpResp CourseDetails) :
    (rc.status = 404 → getCourses rc = .ok [])
    ∧ (rd.status = 404 → getCourseDetails rd = .ok ([] : CourseDetails))
    ∧ (respOk rc = false → rc.status ≠ 404 →
        ∃ e : ApiError, getCourses rc = .error (.api e) ∧ e.status = rc.status)
    ∧ (respOk rd = false → rd.status ≠ 404 →
        ∃ e : ApiError, getCourseDetails rd = .error (.api e) ∧ e.status = rd.status) := by
  refine ⟨fun h => ?_, fun h => ?_, fun hok h => ?_, fun hok h => ?_⟩
  · simp [getCourses, h]
  · simp [getCourseDetails, h]
  · exact ⟨handleErr rc, by simp [getCourses, h, handleResponse, hok], rfl⟩
  · exact ⟨handleErr rd, by simp [getCourseDetails, h, handleResponse, hok], rfl⟩

/-- Witness for C3 at concrete 404 and 503 responses. -/
theorem notFound_resolves_empty_witness :
    getCourses ⟨404, "Not Found", .json (some "No course list available.") []⟩ = .ok []
    ∧ getCourseDetails ⟨404, "Not Found", .notJson⟩ = .ok ([] : CourseDetails)
    ∧ (∃ e : ApiError,
        getCourses ⟨503, "Service Unavailable", .json (some "Provider blocked.") []⟩ =
          .error (.api e) ∧ e.status = 503)
    ∧ (∃ e : ApiError,
        getCourseDetails ⟨500, "Internal Server Error", .notJson⟩ =
          .error (.api e) ∧ e.status = 500) := by
  refine ⟨?_, ?_, ?_, ?_⟩
  · exact (notFound_resolves_empty ⟨404, "Not Found", .json (some "No course list available.") []⟩
      ⟨404, "Not Found", .notJson⟩).1 rfl
  · exact (notFound_resolves_empty ⟨404, "Not Found", .json (some "No course list available.") []⟩
      ⟨404, "Not Found", .notJson⟩).2.1 rfl
  · exact (notFound_resolves_empty ⟨503, "Service Unavailable", .json (some "Provider blocked.") []⟩
      ⟨404, "Not Found", .notJson⟩).2.2.1 (by decide) (by decide)
  · exact (notFound_resolves_empty ⟨404, "Not Found", .json (some "No course list available.") []⟩
      ⟨500, "Internal Server Error", .notJson⟩).2.2.2 (by decide) (by decide)

/-- JavaScript whitespace as tested by `\s` and removed by
`String.prototype.trim` (ASCII range plus no-break space). -/
def isJsSpace (c : Char) : Bool :=
  c == ' ' || c == '\t' || c == '\n' || c == '\r' || c == '\x0b' || c == '\x0c' || c == ' '

/-- `String.prototype.trim`: strip leading and trailing whitespace. -/
def trimChars (l : List Char) : List Char :=
  ((l.dropWhile isJsSpace).reverse.dropWhile isJsSpace).reverse

/-- The unanchored test `/\S+@\S+\.\S+/.test(email)`: true exactly when
some contiguous whitespace-free substring has the shape
nonspace-run, `@`, nonspace-run, `.`, nonspace-run.  Positions `i` and
`j` locate the matched `@` and `.`. -/
def emailRegexTest (l : List Char) : Bool :=
  (List.range l.length).any fun j =>
    (List.range j).any fun i =>
      decide (1 ≤ i) && decide (i + 2 ≤ j) && decide (j + 1 < l.length) &&
      (l.getD i ' ' == '@') && (l.getD j ' ' == '.') &&
      !(isJsSpace (l.getD (i - 1) ' ')) &&
      ((List.range j).all fun k => decide (k ≤ i) || !(isJsSpace (l.getD k ' '))) &&
      !(isJsSpace (l.getD (j + 1) ' '))

/-- `isValidEmail` of WatchSectionDialog.tsx line 44:
`email.trim() !== '' && /\S+@\S+\.\S+/.test(email)`. -/
def isValidEmail (email : List Char) : Bool :=
  !(trimChars email).isEmpty && emailRegexTest email

/-- The toasts the submit handlers can raise before or instead of a
network request. -/
inductive SubmitToast where
  | invalidEmail
  | emailRequired
  | missingInfo
deriving DecidableEq

/-- What a submit handler did: the email it dispatched to the Submit
watch endpoint (if any) and the toast it raised (if any). -/
structure SubmitOutcome where
  dispatchedEmail : Option (List Char)
  toast : Option SubmitToast
deriving DecidableEq

/-- `handleSubmit` of WatchSectionDialog.tsx lines 47-54: if the email
is invalid, the mutation is pending, or no section is chosen, return
without submitting (raising the invalid-email toast exactly when the
email is invalid); otherwise call `onSubmit(email)`. -/
def dialogHandleSubmit (email : List Char) (isPending sectionPresent : Bool) : SubmitOutcome :=
  if !(isValidEmail email) || isPending || !sectionPresent then
    ⟨none, if !(isValidEmail email) then some .invalidEmail else none⟩
  else ⟨some email, none⟩

/-- `handleWatchSubmit` of App.tsx lines 339-360, up to the dispatch
decision: empty-after-trim email warns and returns, a regex failure
errors and returns, missing term, course or section errors and returns,
and only then is the request dispatched. -/
def appHandleWatchSubmit (watchEmail : List Char) (selectedTerm selectedCourse : String)
    (watchSection : Option CourseDetailsSection) : SubmitOutcome :=
  if watchEmail.isEmpty || (trimChars watchEmail).isEmpty then ⟨none, some .emailRequired⟩
  else if !(emailRegexTest watchEmail) then ⟨none, some .invalidEmail⟩
  else if selectedTerm = "" || selectedCourse = "" || watchSection.isNone then
    ⟨none, some .missingInfo⟩
  else ⟨some watchEmail, none⟩

/-- C5: both submit handlers dispatch a watch request only when the
entered email is non-empty after trimming and passes the
`\S+@\S+\.\S+` test; for every email failing that check they issue no
request and raise an email-validation toast (the dialog always the
invalid-email toast, App.tsx the email-required warning for blank input
and the invalid-email error otherwise). -/
theorem email_validation_gates_submit (email : List Char) (isPending sectionPresent : Bool)
    (selectedTerm selectedCourse : String) (watchSection : Option CourseDetailsSection) :
    ((dialogHandleSubmit email isPending sectionPresent).dispatchedEmail ≠ none →
      trimChars email ≠ [] ∧ emailRegexTest email = true)
    ∧ ((appHandleWatchSubmit email selectedTerm selectedCourse watchSection).dispatchedEmail ≠ none →
      trimChars email ≠ [] ∧ emailRegexTest email = true)
    ∧ (isValidEmail email = false →
      dialogHandleSubmit email isPending sectionPresent = ⟨none, some .invalidEmail⟩)
    ∧ (isValidEmail email = false →
      (appHandleWatchSubmit email selectedTerm selectedCourse watchSection).dispatchedEmail = none
      ∧ ((appHandleWatchSubmit email selectedTerm selectedCourse watchSection).toast =
            some .emailRequired
         ∨ (appHandleWatchSubmit email selectedTerm selectedCourse watchSection).toast =
            some .invalidEmail)) := by
  refine ⟨?_, ?_, ?_, ?_⟩
  · intro h
    by_cases hv : isValidEmail email
    · have hv2 := hv
      unfold isValidEmail at hv2
      simp only [Bool.and_eq_true, Bool.not_eq_true'] at hv2
      refine ⟨fun hn => ?_, hv2.2⟩
      rw [hn] at hv2
      simp at hv2
    · simp [dialogHandleSubmit, hv] at h
  · intro h
    by_cases he : email = []
    · subst he
      simp [appHandleWatchSubmit] at h
    · by_cases h1 : (trimChars email).isEmpty
      · simp [appHandleWatchSubmit, he, h1] at h
      · by_cases h2 : emailRegexTest email
        · refine ⟨fun hn => ?_, h2⟩
          rw [hn] at h1
          simp at h1
        · simp [appHandleWatchSubmit, he, h1, h2] at h
  · intro hv
    simp [dialogHandleSubmit, hv]
  · intro hv
    by_cases he : email = []
    · subst he
      simp [appHandleWatchSubmit]
    · by_cases h1 : (trimChars email).isEmpty
      · simp [appHandleWatchSubmit, he, h1]
      · have h2 : emailRegexTest email = false := by
          unfold isValidEmail at hv
          simp only [Bool.and_eq_false_iff, Bool.not_eq_false'] at hv
          rcases hv with hv | hv
          · exact absurd hv h1
          · exact hv
        simp [appHandleWatchSubmit, he, h1, h2]

/-- Witness for C5: the handlers dispatch for a well-formed email and
refuse a malformed one. -/
theorem email_validation_gates_submit_witness :
    (trimChars "a@b.c".toList ≠ [] ∧ emailRegexTest "a@b.c".toList = true)
    ∧ dialogHandleSubmit "not-an-email".toList false true =
        ⟨none, some SubmitToast.invalidEmail⟩ := by
  constructor
  · exact (email_validation_gates_submit "a@b.c".toList false true "3202" "COMPSCI 1JC3"
      none).1 (by decide)
  · exact (email_validation_gates_submit "not-an-email".toList false true "3202" "COMPSCI 1JC3"
      none).2.2.1 (by decide)

/-- `handleWatchSubmit` of CourseDetailsDisplay.tsx lines 42-52, up to
the mutation call: guard on the selected term, selected course and
chosen section, then build the payload from exactly those values. -/
def detailsHandleWatchSubmit (email selectedTerm selectedCourse : String)
    (watchSection : Option CourseDetailsSection) : Option WatchRequestPayload :=
  if selectedTerm = "" || selectedCourse = "" || watchSection.isNone then none
  else
    match watchSection with
    | some s => some ⟨email, selectedTerm, selectedCourse, s.key⟩
    | none => none

/-- The JSON object `JSON.stringify` serializes for the POST body, as
an ordered field list. -/
def payloadJsonFields (p : WatchRequestPayload) : List (String × String) :=
  [("email", p.email), ("term_id", p.term_id), ("course_code", p.course_code),
    ("section_key", p.section_key)]

/-- C6: every dispatched watch submission posts the JSON serialization
of an object with exactly the four fields `email`, `term_id`,
`course_code` and `section_key`, bound to the entered email, the
selected term, the selected course and the chosen section's key; no
other fields are sent. -/
theorem watch_payload_exact_fields (email term course : String) (s : CourseDetailsSection)
    (p : WatchRequestPayload) :
    detailsHandleWatchSubmit email term course (some s) = some p →
      p = WatchRequestPayload.mk email term course s.key
      ∧ payloadJsonFields p =
          [("email", email), ("term_id", term), ("course_code", course),
            ("section_key", s.key)]
      ∧ (payloadJsonFields p).map Prod.fst =
          ["email", "term_id", "course_code", "section_key"] := by
  intro h
  unfold detailsHandleWatchSubmit at h
  by_cases ht : term = "" <;> by_cases hc : course = "" <;>
    simp [ht, hc] at h
  subst h
  exact ⟨rfl, rfl, rfl⟩

/-- Witness for C6 at a concrete submission. -/
theorem watch_payload_exact_fields_witness :
    payloadJsonFields ⟨"x@y.z", "3202", "COMPSCI 1JC3", "1234"⟩ =
      [("email", "x@y.z"), ("term_id", "3202"), ("course_code", "COMPSCI 1JC3"),
        ("section_key", "1234")] :=
  (watch_payload_exact_fields "x@y.z" "3202" "COMPSCI 1JC3"
    ⟨"LEC", "1234", 0, 100, "C01"⟩ ⟨"x@y.z", "3202", "COMPSCI 1JC3", "1234"⟩ rfl).2.1

/-- Modelled from the spec: the backend Watch Registry's lifecycle
states (`status` of a WatchRequest); the registry implementation is not
among the available sources, only the frontend is. -/
inductive WatchStatus where
  | active
  | notified
  | deactivated
deriving DecidableEq

/-- Modelled from the spec: the transitions the system ever performs on
a watch row; the Dispatcher moves `active` watches to `notified` on an
opening transition or to `deactivated` on section removal, and nothing
mutates a watch otherwise. -/
def watchStatusStep (s t : WatchStatus) : Bool :=
  match s, t with
  | .active, .notified => true
  | .active, .deactivated => true
  | _, _ => false

/-- C7: every watch-status transition is `active → notified` or
`active → deactivated`; no transition leaves `notified` or
`deactivated`, and a chain of transitions starting in a terminal state
is empty, so a watch never returns to `active`. -/
theorem watch_lifecycle (s t : WatchStatus) (l : List WatchStatus) :
    (watchStatusStep s t = true ↔
      (s = .active ∧ (t = .notified ∨ t = .deactivated)))
    ∧ (List.Chain (fun a b => watchStatusStep a b = true) .notified l → l = [])
    ∧ (List.Chain (fun a b => watchStatusStep a b = true) .deactivated l → l = []) := by
  refine ⟨?_, ?_, ?_⟩
  · cases s <;> cases t <;> simp [watchStatusStep]
  · intro h
    cases h with
    | nil => rfl
    | cons hd _ => cases hd
  · intro h
    cases h with
    | nil => rfl
    | cons hd _ => cases hd

/-- Witness for C7: the empty chain out of `notified`. -/
theorem watch_lifecycle_witness :
    watchStatusStep .active .notified = true ∧ ([] : List WatchStatus) = [] :=
  ⟨(watch_lifecycle .active .notified []).1.mpr ⟨rfl, Or.inl rfl⟩,
    (watch_lifecycle .active .notified []).2.1 List.Chain.nil⟩

/-- The state held by `CourseSelectionProvider`
(src/frontend/src/contexts/CourseSelectionContext.tsx). -/
structure CourseSelection where
  selectedTerm : String
  selectedCourse : String
deriving DecidableEq

/-- `setSelectedTerm` of CourseSelectionContext.tsx lines 12-15: set
the term and always reset the course to the empty string. -/
def setSelectedTerm (termId : String) (s : CourseSelection) : CourseSelection :=
  ⟨termId, ""⟩

/-- `setSelectedCourse` of CourseSelectionContext.tsx lines 17-19: set
the course, leaving the term untouched. -/
def setSelectedCourse (courseCode : String) (s : CourseSelection) : CourseSelection :=
  ⟨s.selectedTerm, courseCode⟩

/-- The two mutations the provider exposes. -/
inductive SelAction where
  | term (termId : String)
  | course (courseCode : String)

/-- Apply one exposed mutation to the provider state. -/
def applySel (a : SelAction) (s : CourseSelection) : CourseSelection :=
  match a with
  | .term t => setSelectedTerm t s
  | .course c => setSelectedCourse c s

/-- C9: `setSelectedTerm t` sets the term to `t` and always clears the
course; `setSelectedCourse c` sets the course to `c` and leaves the
term unchanged; hence any exposed mutation that changes the term leaves
the course empty, so a non-empty course selection never outlives its
term. -/
theorem course_selection_frame (s : CourseSelection) (t c : String) (a : SelAction) :
    (setSelectedTerm t s).selectedTerm = t
    ∧ (setSelectedTerm t s).selectedCourse = ""
    ∧ (setSelectedCourse c s).selectedCourse = c
    ∧ (setSelectedCourse c s).selectedTerm = s.selectedTerm
    ∧ ((applySel a s).selectedTerm ≠ s.selectedTerm → (applySel a s).selectedCourse = "") := by
  refine ⟨rfl, rfl, rfl, rfl, ?_⟩
  cases a with
  | term t2 => intro _; rfl
  | course c2 => intro h; exact absurd rfl h

/-- Witness for C9: changing the term from a state with a course
selected clears the course. -/
theorem course_selection_frame_witness :
    (applySel (.term "3203") ⟨"3202", "COMPSCI 1JC3"⟩).selectedCourse = "" :=
  (course_selection_frame ⟨"3202", "COMPSCI 1JC3"⟩ "x" "y" (.term "3203")).2.2.2.2
    (by decide)

/-- Helper: the value reported by `getLast?` is a member of the list. -/
theorem mem_of_getLastOpt {α : Type} : ∀ (l : List α) (m : α), l.getLast? = some m → m ∈ l
  | [], m, h => by simp at h
  | [a], m, h => by
      simp at h
      simp [h]
  | a :: b :: t, m, h => by
      rw [List.getLast?_cons_cons] at h
      exact List.mem_cons_of_mem a (mem_of_getLastOpt (b :: t) m h)

/-- Helper: in a list sorted by a total relation, every member is
related to the last element. -/
theorem sorted_last_greatest {α : Type} {r : α → α → Prop}
    (total : ∀ a b : α, r a b ∨ r b a) :
    ∀ (l : List α) (m : α), l.Sorted r → l.getLast? = some m → ∀ x ∈ l, r x m := by
  intro l
  induction l with
  | nil => intro m _ h; simp at h
  | cons a t ih =>
    intro m hs hl x hx
    cases t with
    | nil =>
      simp at hl hx
      subst hl
      subst hx
      rcases total x x with h | h <;> exact h
    | cons b t2 =>
      rw [List.getLast?_cons_cons] at hl
      rcases List.mem_cons.mp hx with rfl | hx2
      · exact List.rel_of_sorted_cons hs m (mem_of_getLastOpt _ _ hl)
      · exact ih m hs.of_cons hl x hx2

/-- The shape of the data the List terms query can resolve with, as
distinguished by the `Array.isArray` safety check in `useTerms`. -/
inductive TermsQueryData where
  | notArray
  | array (terms : List Term)

/-- The ascending order induced by the comparator
`(a, b) => a.id.localeCompare(b.id)` of useCourseData.tsx line 27;
`localeCompare` itself is locale-defined, so it enters as a parameter
`lc` returning an `Ordering`. -/
def termLocaleLe (lc : String → String → Ordering) (a b : Term) : Prop :=
  lc a.id b.id ≠ Ordering.gt

instance (lc : String → String → Ordering) : DecidableRel (termLocaleLe lc) := fun a b =>
  inferInstanceAs (Decidable (lc a.id b.id ≠ Ordering.gt))

/-- The `select` step of `useTerms` (useCourseData.tsx lines 21-28):
non-array data becomes `[]`; array data is copied and sorted ascending
by id under the comparator. -/
def useTermsSelect (lc : String → String → Ordering) (d : TermsQueryData) : List Term :=
  match d with
  | .notArray => []
  | .array l => l.insertionSort (termLocaleLe lc)

/-- The default-selection effect of TermSelector (src/unnamed/part_003
of the TermSelector file, lines 15-22): with no term selected and a
non-empty sorted list, select the last element's id. -/
def termSelectorDefault (selectedTerm : String) (terms : List Term) : Option String :=
  if selectedTerm = "" && !terms.isEmpty then (terms.getLast?).map Term.id else none

/-- C8: for a consistent (total, transitive) comparator, the `useTerms`
select step maps any non-array input to `[]` and any term array to a
permutation of it sorted ascending by id under the comparator (the
input list value itself is untouched, the sort runs on a copy), and
TermSelector defaults the selection to the id of the last — hence
greatest — element of that sorted list. -/
theorem useTerms_sorted_default (lc : String → String → Ordering)
    (htot : ∀ a b : Term, termLocaleLe lc a b ∨ termLocaleLe lc b a)
    (htrans : ∀ a b c : Term,
      termLocaleLe lc a b → termLocaleLe lc b c → termLocaleLe lc a c)
    (l : List Term) :
    List.Perm (useTermsSelect lc (.array l)) l
    ∧ (useTermsSelect lc (.array l)).Sorted (termLocaleLe lc)
    ∧ useTermsSelect lc .notArray = []
    ∧ (∀ m, (useTermsSelect lc (.array l)).getLast? = some m →
        termSelectorDefault "" (useTermsSelect lc (.array l)) = some m.id
        ∧ ∀ x ∈ useTermsSelect lc (.array l), termLocaleLe lc x m) := by
  letI : IsTotal Term (termLocaleLe lc) := ⟨htot⟩
  letI : IsTrans Term (termLocaleLe lc) := ⟨fun a b c => htrans a b c⟩
  refine ⟨List.perm_insertionSort _ _, List.sorted_insertionSort _ _, rfl, ?_⟩
  intro m hm
  have hne : (useTermsSelect lc (.array l)).isEmpty = false := by
    cases h0 : useTermsSelect lc (.array l) with
    | nil => rw [h0] at hm; simp at hm
    | cons x xs => rfl
  constructor
  · simp [termSelectorDefault, hne, hm]
  · exact sorted_last_greatest htot _ m (List.sorted_insertionSort _ _) hm

/-- A concrete consistent comparator: compare ids by length. -/
def lenCmp (a b : String) : Ordering := compare a.length b.length

/-- The length comparator's order is total. -/
theorem lenCmp_total : ∀ a b : Term, termLocaleLe lenCmp a b ∨ termLocaleLe lenCmp b a := by
  intro a b
  unfold termLocaleLe lenCmp
  simp only [Ne, Nat.compare_eq_gt]
  omega

/-- The length comparator's order is transitive. -/
theorem lenCmp_trans : ∀ a b c : Term,
    termLocaleLe lenCmp a b → termLocaleLe lenCmp b c → termLocaleLe lenCmp a c := by
  intro a b c
  unfold termLocaleLe lenCmp
  simp only [Ne, Nat.compare_eq_gt]
  omega

/-- A concrete unsorted term list. -/
def demoTerms : List Term := [⟨"3202", "Fall 2024"⟩, ⟨"320", "Spring 2024"⟩]

/-- Witness for C8: sorting the demo list and defaulting to its last
(greatest) id. -/
theorem useTerms_sorted_default_witness :
    termSelectorDefault "" (useTermsSelect lenCmp (.array demoTerms)) = some "3202" :=
  ((useTerms_sorted_default lenCmp lenCmp_total lenCmp_trans demoTerms).2.2.2
    ⟨"3202", "Fall 2024"⟩ (by decide)).1

/-- `String.prototype.toLowerCase` (ASCII case mapping). -/
def jsToLower (s : String) : String := String.mk (s.toList.map Char.toLower)

/-- `String.prototype.trim` on a `String`. -/
def jsTrim (s : String) : String := String.mk (trimChars s.toList)

/-- `String.prototype.includes`: contiguous-substring containment. -/
def listContainsSub : List Char → List Char → Bool
  | [], needle => needle.isEmpty
  | c :: t, needle => needle.isPrefixOf (c :: t) || listContainsSub t needle

/-- `hay.includes(needle)` on Lean strings. -/
def strIncludes (hay needle : String) : Bool := listContainsSub hay.toList needle.toList

/-- `INITIAL_COURSE_COUNT` of CourseSelector.tsx line 11. -/
def INITIAL_COURSE_COUNT : Nat := 30

/-- `LOAD_MORE_COUNT` of CourseSelector.tsx line 12. -/
def LOAD_MORE_COUNT : Nat := 30

/-- `filteredAndDisplayedCourses` of CourseSelector.tsx lines 67-75 and
App.tsx lines 459-468: with a non-empty trimmed lower-cased query,
filter the whole list by lower-cased containment; otherwise show the
visible slice `courses.slice(0, visibleCourseCount)`. -/
def filteredAndDisplayedCourses (courses : List String) (courseSearchQuery : String)
    (visibleCourseCount : Nat) : List String :=
  let query := jsToLower (jsTrim courseSearchQuery)
  if query ≠ "" then courses.filter (fun course => strIncludes (jsToLower course) query)
  else courses.take visibleCourseCount

/-- `handleCourseScroll` of CourseSelector.tsx lines 50-64 and App.tsx
lines 417-438: no update while a query is active; otherwise, when
scrolled near the bottom (`nearBottom` abstracts the DOM geometry test)
and more courses remain, grow the visible count by `LOAD_MORE_COUNT`
capped at the list length. -/
def handleCourseScroll (courseSearchQuery : String) (nearBottom : Bool)
    (visibleCourseCount coursesLength : Nat) : Nat :=
  if courseSearchQuery ≠ "" then visibleCourseCount
  else if nearBottom && decide (visibleCourseCount < coursesLength) then
    min (visibleCourseCount + LOAD_MORE_COUNT) coursesLength
  else visibleCourseCount

/-- C10: with a non-empty trimmed query the displayed list is exactly
the in-order filter of the fetched list by lower-cased containment;
with an empty query it is the length-`min(visibleCourseCount, length)`
prefix; in both cases it is a subsequence of the fetched list; and
`handleCourseScroll` never decreases the visible count and any change
it makes stays at most the list length. -/
theorem course_list_display (courses : List String) (q : String) (visible : Nat) (nb : Bool) :
    (jsToLower (jsTrim q) ≠ "" →
      filteredAndDisplayedCourses courses q visible =
        courses.filter (fun c => strIncludes (jsToLower c) (jsToLower (jsTrim q))))
    ∧ (jsToLower (jsTrim q) = "" →
      filteredAndDisplayedCourses courses q visible = courses.take visible
      ∧ (filteredAndDisplayedCourses courses q visible).length = min visible courses.length
      ∧ ∃ rest, filteredAndDisplayedCourses courses q visible ++ rest = courses)
    ∧ List.Sublist (filteredAndDisplayedCourses courses q visible) courses
    ∧ visible ≤ handleCourseScroll q nb visible courses.length
    ∧ (handleCourseScroll q nb visible courses.length ≠ visible →
        handleCourseScroll q nb visible courses.length ≤ courses.length) := by
  refine ⟨fun h => ?_, fun h => ?_, ?_, ?_, ?_⟩
  · simp only [filteredAndDisplayedCourses, if_pos h]
  · have hq : ¬(("" : String) ≠ "") := fun hne => hne rfl
    refine ⟨?_, ?_, ?_⟩
    · simp only [filteredAndDisplayedCourses, h, if_neg hq]
    · simp only [filteredAndDisplayedCourses, h, if_neg hq]
      exact List.length_take visible courses
    · refine ⟨courses.drop visible, ?_⟩
      simp only [filteredAndDisplayedCourses, h, if_neg hq]
      exact List.take_append_drop visible courses
  · unfold filteredAndDisplayedCourses
    by_cases h : jsToLower (jsTrim q) ≠ ""
    · rw [if_pos h]
      exact List.filter_sublist courses
    · rw [if_neg h]
      exact List.take_sublist visible courses
  · unfold handleCourseScroll
    by_cases h1 : q ≠ "" <;> simp [h1] <;> split <;> omega
  · intro hch
    unfold handleCourseScroll at hch ⊢
    by_cases h1 : q ≠ "" <;> simp [h1] at hch ⊢ <;> revert hch <;> split <;> omega

/-- Witness for C10 at a concrete course list, query, and scroll
position. -/
theorem course_list_display_witness :
    filteredAndDisplayedCourses ["MATH 1A", "CS 2B"] " ma " 1 = ["MATH 1A"]
    ∧ filteredAndDisplayedCourses ["MATH 1A", "CS 2B"] "" 1 = ["MATH 1A"]
    ∧ handleCourseScroll "" true 1 2 ≤ 2 := by
  refine ⟨?_, ?_, ?_⟩
  · exact ((course_list_display ["MATH 1A", "CS 2B"] " ma " 1 true).1 (by decide)).trans
      (by decide)
  · exact (((course_list_display ["MATH 1A", "CS 2B"] "" 1 true).2.1 (by decide)).1).trans
      (by decide)
  · exact (course_list_display ["MATH 1A", "CS 2B"] "" 1 true).2.2.2.2 (by decide)
